import Mathlib

/-!
Verification development for the incremental translation task orchestrator of
pdf_paper_translator (src/workflow_utils.py and src/server.py).

The Python data is embedded shallowly: a task (the JSON objects stored in the
`tasks` array of the per-document cache file) becomes a Lean structure, the
two fingerprint merges, the execution loop, the feedback endpoint, the SSE
progress generator and the sentence-aware splitter become executable Lean
functions translated from the source.  The md5 fingerprint itself is not
re-implemented: all functions receive tasks whose `chunk_hash` field has
already been computed, exactly as the Python code receives them, and the only
property the code relies on is that equal text gives equal hash, which holds
for any function of the text.
-/

namespace PdfPaperTranslator

/-- Task record, mirroring the dictionaries created by `build_initial_tasks`
(workflow_utils.py lines 321-330).  The Python objects are dynamic
dictionaries; snapshots written by this program always carry all eight keys
(`build_initial_tasks` creates them and the merge heals missing `user_hint` /
`old_trans`), so the embedding uses a record with total fields.  `status` and
`type` are kept as strings, as in the source. -/
structure Task where
  id : Nat
  type : String
  chunk_hash : String
  status : String
  src : String
  trans : String
  user_hint : String
  old_trans : String
deriving DecidableEq, Repr

/-- Python regex class \s restricted to its ASCII members, used by the
splitting and stripping code. -/
def isSpaceChar (c : Char) : Bool :=
  c == ' ' || c == '\t' || c == '\n' || c == '\r' || c == '\x0b' || c == '\x0c'

/-- Python str.strip() with no argument: remove leading and trailing
whitespace (ASCII fragment). -/
def pyStrip (s : String) : String :=
  String.mk (((s.data.dropWhile isSpaceChar).reverse.dropWhile isSpaceChar).reverse)

/-- Does the character list start with the given pattern list? -/
def startsWithList : List Char → List Char → Bool
  | [], _ => true
  | _ :: _, [] => false
  | p :: ps, c :: cs => p == c && startsWithList ps cs

/-- Python substring test (the `in` operator on str), over character lists. -/
def containsList (pat : List Char) : List Char → Bool
  | [] => startsWithList pat []
  | c :: cs => startsWithList pat (c :: cs) || containsList pat cs

/-- Helper for `pyReplace`: replace non-overlapping occurrences left to
right.  The fuel argument is initialised with the length of the subject, which
bounds the number of recursion steps. -/
def replaceAux (pat repl : List Char) : Nat → List Char → List Char
  | 0, cs => cs
  | _ + 1, [] => []
  | n + 1, c :: cs =>
    if startsWithList pat (c :: cs) then
      repl ++ replaceAux pat repl n ((c :: cs).drop pat.length)
    else
      c :: replaceAux pat repl n cs

/-- Python str.replace: replace every non-overlapping occurrence of `pat` by
`repl`, scanning left to right. -/
def pyReplace (s pat repl : String) : String :=
  if pat = "" then s
  else String.mk (replaceAux pat.data repl.data s.data.length s.data)

/-- Python substring test on strings. -/
def strContains (s pat : String) : Bool := containsList pat.data s.data

/-- Substring occurrence as a proposition: `sub` occurs inside `s`. -/
def strOccurs (s sub : String) : Prop := ∃ a b : String, s = a ++ sub ++ b

/-- First fence strip of the provider response:
re.sub(r'^```xml\s*', '', res_text) (workflow_utils.py line 1001). -/
def stripXmlFenceStart (s : String) : String :=
  if s.startsWith "```xml" then String.mk ((s.drop 6).data.dropWhile isSpaceChar)
  else s

/-- Second fence strip: re.sub(r'```$', '', res_text) (line 1002).  Without
MULTILINE the anchor matches at the very end of the string or just before a
final newline. -/
def stripEndFence (s : String) : String :=
  if s.endsWith "```" then s.dropRight 3
  else if s.endsWith "```\n" then (s.dropRight 4).push '\n'
  else s

/-- Both code-fence strips applied to a provider response, in source order. -/
def stripFences (s : String) : String := stripEndFence (stripXmlFenceStart s)

/-- Lookup in the hash index `old_tasks_map` / `old_map`.  Both merges build a
Python dict by iterating the old task list and writing `map[t["chunk_hash"]] = t`,
so a later task with the same fingerprint overwrites an earlier one: the
lookup returns the last old task carrying the fingerprint. -/
def lookupLast (tasks : List Task) (h : String) : Option Task :=
  match tasks with
  | [] => none
  | t :: rest =>
    match lookupLast rest h with
    | some r => some r
    | none => if t.chunk_hash = h then some t else none

/-- Status reset performed by the merge inside `run_smart_analysis`
(lines 912-913): a carried-over `failed` or `processing` status becomes
`pending`. -/
def resetStatus (s : String) : String :=
  if s = "failed" ∨ s = "processing" then "pending" else s

/-- Fingerprint merge performed by `run_smart_analysis` (workflow_utils.py
lines 903-919).  On a fingerprint hit the Python code reuses the cached task
dictionary itself (`task_entry = cached_task`) and assigns only
`task_entry["id"] = newTask["id"]` plus the status reset: `type`, `src` and
the translation fields all remain the old task's.  Because the same
dictionary object is fetched for every fresh chunk with the same fingerprint,
its final `id` is the id of the last fresh chunk carrying that fingerprint;
the value-level embedding reflects that with `lookupLast new_tasks`. -/
def run_smart_merge (old_tasks new_tasks : List Task) : List Task :=
  new_tasks.map fun nt =>
    match lookupLast old_tasks nt.chunk_hash with
    | some ot =>
      { ot with
        id := match lookupLast new_tasks nt.chunk_hash with
              | some last => last.id
              | none => nt.id,
        status := resetStatus ot.status }
    | none => nt

/-- Fingerprint merge performed at extraction time inside
`extract_text_and_save_assets_smart` (workflow_utils.py lines 846-865).  Here
the fresh task dictionary is kept (so `id` and `type` are the fresh chunk's)
and only `trans`, `status`, `user_hint` and `old_trans` are copied over from
the old task; the status is copied verbatim, with no reset. -/
def extract_smart_merge (old_tasks new_tasks : List Task) : List Task :=
  new_tasks.map fun nt =>
    match lookupLast old_tasks nt.chunk_hash with
    | some ot =>
      { nt with
        trans := ot.trans,
        status := ot.status,
        user_hint := ot.user_hint,
        old_trans := ot.old_trans }
    | none => nt

/-- Model name for the first-pass profile (run_smart_analysis line 883). -/
def MODEL_NORMAL : String := "qwen2.5:7b"

/-- Model name for the correction profile (run_smart_analysis line 884). -/
def MODEL_STRONG : String := "qwen2.5:14b"

/-- Modelled from the spec: the prompt text lives in prompts.py, which is not
among the analysed sources; only the identity of each prompt matters here, so
it is modelled as a distinct printable token.  The real asset prompt contains
a placeholder that `run_smart_analysis` fills with the reference map; since
its content is unknown the placeholder is not reproduced. -/
def SYSTEM_PROMPT_META : String := "<SYSTEM_PROMPT_META>"

/-- Modelled from the spec: see `SYSTEM_PROMPT_META`. -/
def SYSTEM_PROMPT_HEADER : String := "<SYSTEM_PROMPT_HEADER>"

/-- Modelled from the spec: see `SYSTEM_PROMPT_META`. -/
def SYSTEM_PROMPT_BODY : String := "<SYSTEM_PROMPT_BODY>"

/-- Modelled from the spec: see `SYSTEM_PROMPT_META`. -/
def SYSTEM_PROMPT_ASSET : String := "<SYSTEM_PROMPT_ASSET>"

/-- Modelled from the spec: see `SYSTEM_PROMPT_META`. -/
def SYSTEM_PROMPT_CORRECTION : String := "<SYSTEM_PROMPT_CORRECTION>"

/-- The PROMPT_MAP dictionary of `run_smart_analysis` (lines 928-933) plus the
`.get(t_type, PROMPT_MAP["body"])` lookup of line 987: the asset entry has the
reference map substituted in, and an unknown type falls back to the body
prompt. -/
def promptMap (ref_map : String) (t_type : String) : String :=
  if t_type = "meta" then SYSTEM_PROMPT_META
  else if t_type = "header" then SYSTEM_PROMPT_HEADER
  else if t_type = "body" then SYSTEM_PROMPT_BODY
  else if t_type = "asset" then pyReplace SYSTEM_PROMPT_ASSET "{ref_map_str}" ref_map
  else SYSTEM_PROMPT_BODY

/-- The resource-reference rule block appended to a correction prompt
(run_smart_analysis lines 970-977). -/
def ref_map_instruction (ref_map : String) : String :=
  "\n\n【必须遵守的资源引用规则】\n" ++
  "如果用户要求添加图表链接，请严格查阅下表，使用 [[LINK:资源ID|原文]] 格式。\n" ++
  "例如: 原文 \x27see Fig. 1\x27 -> 译文 \x27见 [[LINK:Figure_1|图 1]]\x27。\n" ++
  "--- Resource Map (ID Mapping) ---\n" ++
  ref_map ++ "\n" ++
  "---------------------------------"

/-- The user message of a correction request (run_smart_analysis lines
979-984): original text, the superseded translation, the user instruction and
the resource-map block. -/
def correction_user_content (ref_map src old_trans user_hint : String) : String :=
  "【原文】:\n" ++ src ++ "\n\n" ++
  "【旧译文(有误)】:\n" ++ old_trans ++ "\n\n" ++
  "【用户指引(最高优先级)】:\n" ++ user_hint ++ "\n" ++
  ref_map_instruction ref_map

/-- Generation strategy chosen for one task: model name, system prompt and
user message. -/
structure Strategy where
  model : String
  sysPrompt : String
  userContent : String
deriving DecidableEq, Repr

/-- Strategy selection of `run_smart_analysis` (lines 957-993): a task with a
non-empty stripped `user_hint` and a non-empty stripped `old_trans` is run in
correction mode on the strong model with the correction prompt; every other
task is a first pass on the normal model with the type-selected system
prompt (into which the reference map is substituted when the placeholder is
present). -/
def selectStrategy (ref_map : String) (t : Task) : Strategy :=
  let user_hint := pyStrip t.user_hint
  let old_trans := pyStrip t.old_trans
  if user_hint ≠ "" ∧ old_trans ≠ "" then
    { model := MODEL_STRONG,
      sysPrompt := SYSTEM_PROMPT_CORRECTION,
      userContent := correction_user_content ref_map t.src old_trans user_hint }
  else
    let sys0 := promptMap ref_map t.type
    let sys1 := if strContains sys0 "{ref_map_str}"
                then pyReplace sys0 "{ref_map_str}" ref_map
                else sys0
    { model := MODEL_NORMAL, sysPrompt := sys1, userContent := t.src }

/-- Outcome of one provider call: an exception raised by the client, or a
response text (possibly empty). -/
inductive PResult where
  | err : PResult
  | ok : String → PResult
deriving DecidableEq, Repr

/-- Observable events of the execution loop: a provider invocation (with the
strategy that built the request) and the `time.sleep(2)` executed in the
exception handler. -/
inductive Ev where
  | call : String → String → String → Ev
  | sleep : Ev
deriving DecidableEq, Repr

/-- Recogniser for the delay event. -/
def isSleep : Ev → Bool
  | Ev.sleep => true
  | _ => false

/-- Recogniser for the exception outcome. -/
def isErr : PResult → Bool
  | PResult.err => true
  | _ => false

/-- Result of the bounded-retry block for one task: the updated task, the
next provider call number and the events in order. -/
structure AttemptRes where
  task : Task
  calls : Nat
  evs : List Ev
deriving DecidableEq, Repr

/-- The `for attempt in range(3)` retry block of `run_smart_analysis` (lines
996-1014).  `provider n` is the outcome of the n-th provider call of the run.
On an exception the handler sleeps and the next attempt runs; on a response
the code fences are stripped and a non-empty remainder is stored stripped as
the translation with status success; an empty remainder falls through to the
next attempt without any delay.  When the attempts are exhausted without
success the task is marked failed. -/
def runAttempts (provider : Nat → PResult) (strat : Strategy) (t : Task) :
    Nat → Nat → AttemptRes
  | callNo, 0 => ⟨{ t with status := "failed" }, callNo, []⟩
  | callNo, n + 1 =>
    match provider callNo with
    | PResult.err =>
      let r := runAttempts provider strat t (callNo + 1) n
      ⟨r.task, r.calls, Ev.call strat.model strat.sysPrompt strat.userContent :: Ev.sleep :: r.evs⟩
    | PResult.ok s =>
      let cleaned := stripFences s
      if cleaned = "" then
        let r := runAttempts provider strat t (callNo + 1) n
        ⟨r.task, r.calls, Ev.call strat.model strat.sysPrompt strat.userContent :: r.evs⟩
      else
        ⟨{ t with trans := pyStrip cleaned, status := "success" }, callNo + 1,
          [Ev.call strat.model strat.sysPrompt strat.userContent]⟩

/-- Result of the execution loop over the remaining task list: final tasks,
final provider call number, events, the snapshots passed to `_save_cache`
(each relative to the processed position, with the already processed tasks
prepended by the caller), and whether the loop was stopped by the gate. -/
structure LoopRes where
  tasks : List Task
  calls : Nat
  evs : List Ev
  saves : List (List Task)
  stopped : Bool
deriving DecidableEq, Repr

/-- The `for task in current_tasks` execution loop of `run_smart_analysis`
(lines 937-1018), with the cache path present (the server always passes one).
`stop i` is the value of the per-document stop flag when it is polled at the
top of iteration i; `provider` indexes outcomes by the global call number.
Per iteration: if the gate is signalled, a `processing` task is rolled back
to `pending`, the snapshot is saved and the loop breaks; a non-pending task
is skipped; a pending task is marked `processing`, checkpointed, run through
the bounded-retry block with its selected strategy, then checkpointed again.
The Python loop iterates over shared dictionary references; entries are
modelled as independent values, which coincides with the reference semantics
whenever the merged entries carry pairwise distinct fingerprints. -/
def execLoop (stop : Nat → Bool) (provider : Nat → PResult) (ref_map : String) :
    Nat → Nat → List Task → LoopRes
  | _, callNo, [] => ⟨[], callNo, [], [], false⟩
  | i, callNo, t :: rest =>
    if stop i then
      let t2 := if t.status = "processing" then { t with status := "pending" } else t
      ⟨t2 :: rest, callNo, [], [t2 :: rest], true⟩
    else if t.status ≠ "pending" then
      let r := execLoop stop provider ref_map (i + 1) callNo rest
      ⟨t :: r.tasks, r.calls, r.evs, r.saves.map (t :: ·), r.stopped⟩
    else
      let t1 := { t with status := "processing" }
      let a := runAttempts provider (selectStrategy ref_map t1) t1 callNo 3
      let r := execLoop stop provider ref_map (i + 1) a.calls rest
      ⟨a.task :: r.tasks, r.calls, a.evs ++ r.evs,
        (t1 :: rest) :: (a.task :: rest) :: r.saves.map (a.task :: ·), r.stopped⟩

/-- Scan past the closing `]]` of a header tag without crossing a newline
(the `.` of the non-greedy regex does not match a newline). -/
def dropToCloseBr : List Char → Option (List Char)
  | [] => none
  | ']' :: ']' :: rest => some rest
  | '\n' :: _ => none
  | _ :: rest => dropToCloseBr rest

/-- Helper for `remove_header_tags`, with fuel bounded by the input length. -/
def removeHeaderAux : Nat → List Char → List Char
  | 0, cs => cs
  | _ + 1, [] => []
  | n + 1, c :: cs =>
    if startsWithList "[[HEADER:".data (c :: cs) then
      match dropToCloseBr ((c :: cs).drop 9) with
      | some rest => removeHeaderAux n rest
      | none => c :: removeHeaderAux n cs
    else
      c :: removeHeaderAux n cs

/-- re.sub(r'\[\[HEADER:.*?\]\]', '', s) (workflow_utils.py line 1026): delete
every single-line `[[HEADER: ...]]` tag. -/
def remove_header_tags (s : String) : String :=
  String.mk (removeHeaderAux s.data.length s.data)

/-- The reference block appended to the result file (run_smart_analysis lines
1024-1027): empty when there is no leftover reference text. -/
def final_refs_block (raw_refs : String) : String :=
  if raw_refs ≠ "" then
    "\n<header_block><src>References</src><trans>参考文献</trans></header_block>" ++
    "\n<ref_block><src>" ++ pyStrip (remove_header_tags raw_refs) ++ "</src></ref_block>"
  else ""

/-- Content written to the `_llm_result.txt` output file (run_smart_analysis
lines 1022-1030): the translations of the tasks whose status is success,
joined with newlines in task-list order, then a newline, then the reference
block. -/
def result_file_content (tasks : List Task) (raw_refs : String) : String :=
  String.intercalate "\n" ((tasks.filter (fun t => t.status == "success")).map (fun t => t.trans))
    ++ "\n" ++ final_refs_block raw_refs

/-- Result of one full `run_smart_analysis` invocation. -/
structure RunRes where
  tasks : List Task
  calls : Nat
  evs : List Ev
  saves : List (List Task)
  output : String
  stopped : Bool
deriving DecidableEq, Repr

/-- The orchestration of `run_smart_analysis` (workflow_utils.py lines
879-1037) after `build_initial_tasks` has produced the fresh task list:
merge against the cached snapshot, run the execution loop only when some
merged task is pending, write the result file, and save the final snapshot
(line 1033) unconditionally. -/
def run_smart_analysis (stop : Nat → Bool) (provider : Nat → PResult)
    (old_tasks new_tasks : List Task) (raw_refs ref_map : String) : RunRes :=
  let current_tasks := run_smart_merge old_tasks new_tasks
  let pending_tasks := current_tasks.filter (fun t => t.status == "pending")
  let r : LoopRes :=
    if pending_tasks.isEmpty then ⟨current_tasks, 0, [], [], false⟩
    else execLoop stop provider ref_map 0 0 current_tasks
  ⟨r.tasks, r.calls, r.evs, r.saves ++ [r.tasks],
    result_file_content r.tasks raw_refs, r.stopped⟩

/-- The `/api/feedback/update` handler `update_feedback` (server.py lines
317-352; `handle_update_task` in workflow_utils.py lines 1498-1525 performs
the same update with string-compared ids): find the first task with the given
id, archive its translation into `old_trans`, store the hint, reset the
status to pending and clear the translation, leaving every other task
untouched; the boolean reports whether a task was found (and hence whether
the snapshot was rewritten). -/
def update_feedback : List Task → Nat → String → List Task × Bool
  | [], _, _ => ([], false)
  | t :: rest, tid, hint =>
    if t.id = tid then
      ({ t with old_trans := t.trans, user_hint := hint,
                status := "pending", trans := "" } :: rest, true)
    else
      let r := update_feedback rest tid hint
      (t :: r.1, r.2)

/-- One polling tick of the SSE generator: the cache file may be absent, or
present with a modification time and either a successful read of its task
list or a read failure (the mid-write case, raising inside the try block). -/
inductive Tick where
  | absent : Tick
  | present : Nat → Option (List Task) → Tick
deriving DecidableEq, Repr

/-- Events reaching the SSE subscriber: a task snapshot, or the terminal
close event. -/
inductive SseEv where
  | snapshot : List Task → SseEv
  | done : SseEv
deriving DecidableEq, Repr

/-- The `event_generator` loop of server.py (lines 268-294), run over a
finite sequence of observed ticks; the first argument is `last_mod_time`
(initially 0).  A tick whose modification time has not advanced is ignored.
On an advanced tick the new time is recorded first; a read failure is then
swallowed by the except clause and produces no event.  A successful read
emits the snapshot, and when the task list is non-empty with every status
success the close event follows and the loop breaks.  The boolean reports
whether the loop terminated. -/
def event_generator : Nat → List Tick → List SseEv × Bool
  | _, [] => ([], false)
  | lastMod, Tick.absent :: rest => event_generator lastMod rest
  | lastMod, Tick.present m r :: rest =>
    if m > lastMod then
      match r with
      | none => event_generator m rest
      | some tasks =>
        if tasks ≠ [] ∧ tasks.all (fun t => t.status == "success") then
          ([SseEv.snapshot tasks, SseEv.done], true)
        else
          let p := event_generator m rest
          (SseEv.snapshot tasks :: p.1, p.2)
    else
      event_generator lastMod rest

/-- The sentence-ending punctuation class [.?!;] of the split marker in
`split_long_buffer_safely` (workflow_utils.py line 100). -/
def sentence_terminal (c : Char) : Bool :=
  c == '.' || c == '?' || c == '!' || c == ';'

/-- The lookahead class [A-Z0-9\[] of the split marker.  The whole pattern is
compiled with re.IGNORECASE, so the letter range also matches lowercase. -/
def split_follow (c : Char) : Bool :=
  c.isAlpha || c.isDigit || c == '['

/-- Python regex word character (ASCII fragment), used for the \b assertions
in the protected-abbreviation lookbehinds. -/
def isWordChar (c : Char) : Bool :=
  c.isAlphanum || c == '_'

/-- The protected abbreviations of `split_long_buffer_safely` (lines 91-99):
a split position must not directly follow any of them. -/
def protected_abbrevs : List String :=
  ["Fig.", "Figs.", "Eq.", "Eqs.", "Tab.", "Tabs.",
   "Ref.", "Refs.", "Vol.", "no.", "al.", "vs.", "i.e.", "e.g."]

/-- Match a reversed pattern against the reversed text before a position,
case-insensitively; returns the remaining reversed prefix on success. -/
def revMatchCI : List Char → List Char → Option (List Char)
  | [], cs => some cs
  | _ :: _, [] => none
  | p :: ps, c :: cs => if p.toLower == c.toLower then revMatchCI ps cs else none

/-- The conjunction of negative lookbehinds: does some protected abbreviation
(preceded by a word boundary) end exactly at this position?  `pre` is the
reversed text before the candidate split position. -/
def abbrev_blocks (pre : List Char) : Bool :=
  protected_abbrevs.any fun a =>
    match revMatchCI a.data.reverse pre with
    | some [] => true
    | some (c :: _) => !(isWordChar c)
    | none => false

/-- Scanner for re.split((?<!...abbrevs...)(?<=[.?!;])\s+(?=[A-Z0-9\[]),
text, flags=re.IGNORECASE).  `pre` is the reversed text already scanned,
`cur` the current piece (reversed), `rem` the rest.  A separator match needs
the previous character in the terminal class, no protected abbreviation
ending there, a maximal whitespace run (greedy \s+; backtracking into the run
cannot help because a shorter run leaves a whitespace character under the
lookahead), and a following character in the lookahead class.  The matched
run is dropped, as re.split drops a groupless separator.  Fuel is initialised
with the input length, which bounds the steps. -/
def split_sentences_aux : Nat → List Char → List Char → List Char → List (List Char)
  | _, _, cur, [] => [cur.reverse]
  | 0, _, cur, rem => [cur.reverse ++ rem]
  | f + 1, pre, cur, c :: rest =>
    let canStart :=
      match pre with
      | [] => false
      | p :: _ => sentence_terminal p && !(abbrev_blocks pre)
    if isSpaceChar c && canStart then
      let ws := (c :: rest).takeWhile isSpaceChar
      let after := (c :: rest).dropWhile isSpaceChar
      match after with
      | a :: _ =>
        if split_follow a then
          cur.reverse :: split_sentences_aux f (ws.reverse ++ pre) [] after
        else
          split_sentences_aux f (c :: pre) (c :: cur) rest
      | [] => split_sentences_aux f (c :: pre) (c :: cur) rest
    else
      split_sentences_aux f (c :: pre) (c :: cur) rest

/-- The sentence list produced by the re.split call of
`split_long_buffer_safely` (line 104). -/
def split_sentences (text : String) : List String :=
  (split_sentences_aux text.data.length [] [] text.data).map String.mk

/-- The sentence-accumulation loop of `split_long_buffer_safely` (lines
109-118): greedily pack sentences while the size check passes; note that the
check compares `len(current_chunk) + len(sentence)` against the cap although
joining inserts one extra space character. -/
def accum_chunks (max_len : Nat) : List String → String → List String
  | [], cur => if cur == "" then [] else [cur]
  | s :: rest, cur =>
    if cur.length + s.length > max_len && !(cur == "") then
      cur :: accum_chunks max_len rest s
    else
      accum_chunks max_len rest (if cur == "" then s else cur ++ " " ++ s)

/-- `split_long_buffer_safely(text, max_len)` (workflow_utils.py lines
87-119): return the text whole when it fits, otherwise split it into
sentences at protected sentence boundaries and re-pack them greedily. -/
def split_long_buffer_safely (text : String) (max_len : Nat) : List String :=
  if text.length ≤ max_len then [text]
  else accum_chunks max_len (split_sentences text) ""

/-! Helper lemmas about the fingerprint index. -/

theorem lookupLast_mem {h : String} :
    ∀ {tasks : List Task} {t : Task},
      lookupLast tasks h = some t → t ∈ tasks ∧ t.chunk_hash = h := by
  intro tasks
  induction tasks with
  | nil => intro t hl; simp [lookupLast] at hl
  | cons a rest ih =>
    intro t hl
    simp only [lookupLast] at hl
    cases hr : lookupLast rest h with
    | some r =>
      rw [hr] at hl
      obtain ⟨hm, hh⟩ := ih hr
      cases hl
      exact ⟨List.mem_cons_of_mem _ hm, hh⟩
    | none =>
      rw [hr] at hl
      by_cases hch : a.chunk_hash = h
      · simp [hch] at hl
        cases hl
        exact ⟨List.mem_cons_self _ _, hch⟩
      · simp [hch] at hl

theorem lookupLast_eq_none {h : String} :
    ∀ {tasks : List Task},
      lookupLast tasks h = none ↔ ∀ t ∈ tasks, t.chunk_hash ≠ h := by
  intro tasks
  induction tasks with
  | nil => simp [lookupLast]
  | cons a rest ih =>
    simp only [lookupLast, List.mem_cons]
    cases hr : lookupLast rest h with
    | some r =>
      obtain ⟨hm, hh⟩ := lookupLast_mem hr
      constructor
      · intro hco; exact absurd hco (by simp)
      · intro hall; exact absurd hh (hall r (Or.inr hm))
    | none =>
      rw [hr] at ih
      by_cases hch : a.chunk_hash = h
      · constructor
        · intro hco; rw [if_pos hch] at hco; exact absurd hco (by simp)
        · intro hall; exact absurd hch (hall a (Or.inl rfl))
      · rw [if_neg hch]
        constructor
        · intro _ t hm
          rcases hm with rfl | hm
          · exact hch
          · exact (ih.mp rfl) t hm
        · intro _; rfl

theorem lookupLast_isSome_of_mem {tasks : List Task} {o : Task}
    (hm : o ∈ tasks) :
    ∃ t, lookupLast tasks o.chunk_hash = some t ∧ t ∈ tasks ∧
      t.chunk_hash = o.chunk_hash := by
  cases hl : lookupLast tasks o.chunk_hash with
  | some t => exact ⟨t, rfl, (lookupLast_mem hl).1, (lookupLast_mem hl).2⟩
  | none => exact absurd rfl (lookupLast_eq_none.mp hl o hm)

theorem lookupLast_of_filter_singleton {h : String} :
    ∀ {tasks : List Task} {nt : Task},
      tasks.filter (fun t => t.chunk_hash = h) = [nt] →
      lookupLast tasks h = some nt := by
  intro tasks
  induction tasks with
  | nil => intro nt hf; simp at hf
  | cons a rest ih =>
    intro nt hf
    by_cases hch : a.chunk_hash = h
    · rw [List.filter_cons_of_pos (by simp [hch])] at hf
      injection hf with h1 h2
      subst h1
      have hnone : lookupLast rest h = none := by
        rw [lookupLast_eq_none]
        intro t hm hth
        have hmem : t ∈ rest.filter (fun t => t.chunk_hash = h) :=
          List.mem_filter.mpr ⟨hm, by simp [hth]⟩
        rw [h2] at hmem
        simp at hmem
      simp [lookupLast, hnone, hch]
    · rw [List.filter_cons_of_neg (by simp [hch])] at hf
      have hrec := ih hf
      simp [lookupLast, hrec]

/-- C1 counterexample: an old snapshot task of type `body` with fingerprint
`h`, merged by `run_smart_analysis` against a fresh chunk of type `header`
with the same fingerprint, yields a task whose type is the OLD task's
`body`, not the fresh chunk's `header` as the claim states. -/
theorem c1_counterexample :
    (run_smart_merge
      [{ id := 0, type := "body", chunk_hash := "h", status := "success",
         src := "S", trans := "T", user_hint := "", old_trans := "" }]
      [{ id := 0, type := "header", chunk_hash := "h", status := "pending",
         src := "S", trans := "", user_hint := "", old_trans := "" }]).map (fun t => t.type)
      = ["body"]
    ∧ ("body" : String) ≠ "header" := by
  constructor
  · rfl
  · decide

/-- C1 (amended): for a fresh chunk whose fingerprint matches the previous
snapshot and occurs only once in the fresh list, the extraction-time merge
produces a task that adopts the old task's status, translation, user hint and
previous translation while keeping the fresh chunk's id and type; the
analysis-run merge instead reuses the old task record and overwrites only the
id (resetting a processing/failed status to pending), so the merged type is
the old task's type. -/
theorem c1_main (old_tasks new_tasks : List Task) (i : Nat) (nt ot : Task)
    (hnt : new_tasks[i]? = some nt)
    (hm : lookupLast old_tasks nt.chunk_hash = some ot)
    (huniq : new_tasks.filter (fun t => t.chunk_hash = nt.chunk_hash) = [nt]) :
    (extract_smart_merge old_tasks new_tasks)[i]? =
      some { nt with trans := ot.trans, status := ot.status,
                     user_hint := ot.user_hint, old_trans := ot.old_trans }
    ∧ (run_smart_merge old_tasks new_tasks)[i]? =
      some { ot with id := nt.id, status := resetStatus ot.status } := by
  have hlast : lookupLast new_tasks nt.chunk_hash = some nt :=
    lookupLast_of_filter_singleton huniq
  constructor
  · rw [extract_smart_merge, List.getElem?_map, hnt]
    simp [hm]
  · rw [run_smart_merge, List.getElem?_map, hnt]
    simp [hm, hlast]

/-- Witness for `c1_main` at a concrete two-task instance. -/
theorem c1_witness :
    ([{ id := 0, type := "body", chunk_hash := "h", status := "failed",
        src := "S", trans := "T", user_hint := "H", old_trans := "O" }] : List Task)[0]?
        = some { id := 0, type := "body", chunk_hash := "h", status := "failed",
                 src := "S", trans := "T", user_hint := "H", old_trans := "O" }
    ∧ ((extract_smart_merge
        [{ id := 3, type := "header", chunk_hash := "h", status := "success",
           src := "S", trans := "TT", user_hint := "HH", old_trans := "OO" }]
        [{ id := 0, type := "body", chunk_hash := "h", status := "failed",
           src := "S", trans := "T", user_hint := "H", old_trans := "O" }])[0]? =
        some { id := 0, type := "body", chunk_hash := "h", status := "success",
               src := "S", trans := "TT", user_hint := "HH", old_trans := "OO" }
      ∧ (run_smart_merge
        [{ id := 3, type := "header", chunk_hash := "h", status := "success",
           src := "S", trans := "TT", user_hint := "HH", old_trans := "OO" }]
        [{ id := 0, type := "body", chunk_hash := "h", status := "failed",
           src := "S", trans := "T", user_hint := "H", old_trans := "O" }])[0]? =
        some { id := 0, type := "header", chunk_hash := "h", status := "success",
               src := "S", trans := "TT", user_hint := "HH", old_trans := "OO" }) := by
  refine ⟨by decide, ?_⟩
  have := c1_main
    [{ id := 3, type := "header", chunk_hash := "h", status := "success",
       src := "S", trans := "TT", user_hint := "HH", old_trans := "OO" }]
    [{ id := 0, type := "body", chunk_hash := "h", status := "failed",
       src := "S", trans := "T", user_hint := "H", old_trans := "O" }]
    0
    { id := 0, type := "body", chunk_hash := "h", status := "failed",
      src := "S", trans := "T", user_hint := "H", old_trans := "O" }
    { id := 3, type := "header", chunk_hash := "h", status := "success",
      src := "S", trans := "TT", user_hint := "HH", old_trans := "OO" }
    (by decide) (by decide) (by decide)
  exact this

/-- C2 counterexample: the extraction-time merge (also named as a source of
the claim) copies a carried-over `processing` status verbatim into the merged
task instead of resetting it to `pending`. -/
theorem c2_counterexample :
    (extract_smart_merge
      [{ id := 0, type := "body", chunk_hash := "h", status := "processing",
         src := "S", trans := "T", user_hint := "", old_trans := "" }]
      [{ id := 0, type := "body", chunk_hash := "h", status := "pending",
         src := "S", trans := "", user_hint := "", old_trans := "" }]).map (fun t => t.status)
      = ["processing"]
    ∧ ("processing" : String) ≠ "pending" := by
  constructor
  · rfl
  · decide

/-- C2 (amended): in the analysis-run merge, every fingerprint-matched task
whose carried-over status is processing or failed is reset to pending, and
every other matched task keeps its carried-over status; the extraction-time
merge copies the carried-over status verbatim, performing no reset. -/
theorem c2_main (old_tasks new_tasks : List Task) (i : Nat) (nt ot : Task)
    (hnt : new_tasks[i]? = some nt)
    (hm : lookupLast old_tasks nt.chunk_hash = some ot) :
    ((ot.status = "processing" ∨ ot.status = "failed") →
      ((run_smart_merge old_tasks new_tasks)[i]?).map (fun t => t.status) = some "pending")
    ∧ (ot.status ≠ "processing" → ot.status ≠ "failed" →
      ((run_smart_merge old_tasks new_tasks)[i]?).map (fun t => t.status) = some ot.status)
    ∧ ((extract_smart_merge old_tasks new_tasks)[i]?).map (fun t => t.status)
        = some ot.status := by
  refine ⟨?_, ?_, ?_⟩
  · intro hps
    rw [run_smart_merge, List.getElem?_map, hnt]
    rcases hps with hp | hp <;> simp [hm, resetStatus, hp]
  · intro h1 h2
    rw [run_smart_merge, List.getElem?_map, hnt]
    simp [hm, resetStatus, h1, h2]
  · rw [extract_smart_merge, List.getElem?_map, hnt]
    simp [hm]

/-- Witness for `c2_main`: a snapshot whose only task was left
`processing` is reset to `pending` by the analysis-run merge. -/
theorem c2_witness :
    lookupLast
      [{ id := 0, type := "body", chunk_hash := "h", status := "processing",
         src := "S", trans := "T", user_hint := "", old_trans := "" }] "h"
      = some { id := 0, type := "body", chunk_hash := "h", status := "processing",
               src := "S", trans := "T", user_hint := "", old_trans := "" }
    ∧ ((run_smart_merge
        [{ id := 0, type := "body", chunk_hash := "h", status := "processing",
           src := "S", trans := "T", user_hint := "", old_trans := "" }]
        [{ id := 0, type := "body", chunk_hash := "h", status := "pending",
           src := "S", trans := "", user_hint := "", old_trans := "" }])[0]?).map
        (fun t => t.status) = some "pending" := by
  refine ⟨by decide, ?_⟩
  exact (c2_main
    [{ id := 0, type := "body", chunk_hash := "h", status := "processing",
       src := "S", trans := "T", user_hint := "", old_trans := "" }]
    [{ id := 0, type := "body", chunk_hash := "h", status := "pending",
       src := "S", trans := "", user_hint := "", old_trans := "" }]
    0
    { id := 0, type := "body", chunk_hash := "h", status := "pending",
      src := "S", trans := "", user_hint := "", old_trans := "" }
    { id := 0, type := "body", chunk_hash := "h", status := "processing",
      src := "S", trans := "T", user_hint := "", old_trans := "" }
    (by decide) (by decide)).1 (Or.inl (by decide))

/-- C3: when the segmentation is unchanged (every fresh chunk's fingerprint
is present in the previous snapshot) and every old task is success, the
analysis-run merge yields a task set in which every task is already success,
and the run performs zero provider calls and leaves the merged tasks
unchanged. -/
theorem c3_main (stop : Nat → Bool) (provider : Nat → PResult)
    (old_tasks new_tasks : List Task) (raw_refs ref_map : String)
    (hall : ∀ o ∈ old_tasks, o.status = "success")
    (hmatch : ∀ t ∈ new_tasks, ∃ o ∈ old_tasks, o.chunk_hash = t.chunk_hash) :
    (∀ t ∈ run_smart_merge old_tasks new_tasks, t.status = "success")
    ∧ (run_smart_analysis stop provider old_tasks new_tasks raw_refs ref_map).calls = 0
    ∧ (run_smart_analysis stop provider old_tasks new_tasks raw_refs ref_map).evs = []
    ∧ (run_smart_analysis stop provider old_tasks new_tasks raw_refs ref_map).tasks
        = run_smart_merge old_tasks new_tasks := by
  have hsucc : ∀ t ∈ run_smart_merge old_tasks new_tasks, t.status = "success" := by
    intro t ht
    rw [run_smart_merge, List.mem_map] at ht
    obtain ⟨nt, hnt, rfl⟩ := ht
    obtain ⟨o, ho, hoh⟩ := hmatch nt hnt
    obtain ⟨r, hr, hrmem, _⟩ := lookupLast_isSome_of_mem ho
    rw [hoh] at hr
    simp only [hr]
    have hrs := hall r hrmem
    simp [resetStatus, hrs]
  have hpend : (run_smart_merge old_tasks new_tasks).filter
      (fun t => t.status == "pending") = [] := by
    rw [List.filter_eq_nil_iff]
    intro t ht
    simp [hsucc t ht]
  refine ⟨hsucc, ?_, ?_, ?_⟩ <;> simp [run_smart_analysis, hpend]

/-- Witness for `c3_main` at a one-task snapshot. -/
theorem c3_witness :
    (∀ o ∈ [({ id := 0, type := "body", chunk_hash := "h", status := "success",
               src := "S", trans := "T", user_hint := "", old_trans := "" } : Task)],
        o.status = "success")
    ∧ (run_smart_analysis (fun _ => false) (fun _ => PResult.err)
        [{ id := 0, type := "body", chunk_hash := "h", status := "success",
           src := "S", trans := "T", user_hint := "", old_trans := "" }]
        [{ id := 0, type := "body", chunk_hash := "h", status := "pending",
           src := "S", trans := "", user_hint := "", old_trans := "" }] "" "").calls = 0 := by
  refine ⟨by decide, ?_⟩
  exact (c3_main (fun _ => false) (fun _ => PResult.err)
    [{ id := 0, type := "body", chunk_hash := "h", status := "success",
       src := "S", trans := "T", user_hint := "", old_trans := "" }]
    [{ id := 0, type := "body", chunk_hash := "h", status := "pending",
       src := "S", trans := "", user_hint := "", old_trans := "" }] "" ""
    (by decide) (by decide)).2.1

/-! Invariants of the retry block and of the execution loop. -/

/-- Projection of the task fields that the execution loop never modifies. -/
def staticFields (t : Task) : Nat × String × String × String × String × String :=
  (t.id, t.type, t.chunk_hash, t.src, t.user_hint, t.old_trans)

theorem runAttempts_status (provider : Nat → PResult) (strat : Strategy) (t : Task) :
    ∀ (n c : Nat), (runAttempts provider strat t c n).task.status = "failed"
      ∨ (runAttempts provider strat t c n).task.status = "success" := by
  intro n
  induction n with
  | zero => intro c; left; rfl
  | succ n ih =>
    intro c
    cases hp : provider c with
    | err => simpa [runAttempts, hp] using ih (c + 1)
    | ok s =>
      by_cases hc : stripFences s = ""
      · simpa [runAttempts, hp, hc] using ih (c + 1)
      · right; simp [runAttempts, hp, hc]

theorem runAttempts_static (provider : Nat → PResult) (strat : Strategy) (t : Task) :
    ∀ (n c : Nat), staticFields (runAttempts provider strat t c n).task = staticFields t := by
  intro n
  induction n with
  | zero => intro c; rfl
  | succ n ih =>
    intro c
    cases hp : provider c with
    | err => simpa [runAttempts, hp] using ih (c + 1)
    | ok s =>
      by_cases hc : stripFences s = ""
      · simpa [runAttempts, hp, hc] using ih (c + 1)
      · simp [runAttempts, hp, hc, staticFields]

theorem execLoop_cons_stop {stop : Nat → Bool} {provider : Nat → PResult}
    {ref_map : String} {i c : Nat} {t : Task} {rest : List Task}
    (hs : stop i = true) :
    execLoop stop provider ref_map i c (t :: rest) =
      ⟨(if t.status = "processing" then { t with status := "pending" } else t) :: rest,
       c, [],
       [(if t.status = "processing" then { t with status := "pending" } else t) :: rest],
       true⟩ := by
  simp [execLoop, hs]

theorem execLoop_cons_skip {stop : Nat → Bool} {provider : Nat → PResult}
    {ref_map : String} {i c : Nat} {t : Task} {rest : List Task}
    (hs : stop i = false) (hp : t.status ≠ "pending") :
    execLoop stop provider ref_map i c (t :: rest) =
      ⟨t :: (execLoop stop provider ref_map (i + 1) c rest).tasks,
       (execLoop stop provider ref_map (i + 1) c rest).calls,
       (execLoop stop provider ref_map (i + 1) c rest).evs,
       (execLoop stop provider ref_map (i + 1) c rest).saves.map (t :: ·),
       (execLoop stop provider ref_map (i + 1) c rest).stopped⟩ := by
  simp [execLoop, hs, hp]

theorem execLoop_cons_pending {stop : Nat → Bool} {provider : Nat → PResult}
    {ref_map : String} {i c : Nat} {t : Task} {rest : List Task}
    (hs : stop i = false) (hp : t.status = "pending") :
    execLoop stop provider ref_map i c (t :: rest) =
      ⟨(runAttempts provider (selectStrategy ref_map { t with status := "processing" })
          { t with status := "processing" } c 3).task ::
        (execLoop stop provider ref_map (i + 1)
          (runAttempts provider (selectStrategy ref_map { t with status := "processing" })
            { t with status := "processing" } c 3).calls rest).tasks,
       (execLoop stop provider ref_map (i + 1)
          (runAttempts provider (selectStrategy ref_map { t with status := "processing" })
            { t with status := "processing" } c 3).calls rest).calls,
       (runAttempts provider (selectStrategy ref_map { t with status := "processing" })
          { t with status := "processing" } c 3).evs ++
        (execLoop stop provider ref_map (i + 1)
          (runAttempts provider (selectStrategy ref_map { t with status := "processing" })
            { t with status := "processing" } c 3).calls rest).evs,
       ({ t with status := "processing" } :: rest) ::
        ((runAttempts provider (selectStrategy ref_map { t with status := "processing" })
            { t with status := "processing" } c 3).task :: rest) ::
        (execLoop stop provider ref_map (i + 1)
          (runAttempts provider (selectStrategy ref_map { t with status := "processing" })
            { t with status := "processing" } c 3).calls rest).saves.map
          ((runAttempts provider (selectStrategy ref_map { t with status := "processing" })
              { t with status := "processing" } c 3).task :: ·),
       (execLoop stop provider ref_map (i + 1)
          (runAttempts provider (selectStrategy ref_map { t with status := "processing" })
            { t with status := "processing" } c 3).calls rest).stopped⟩ := by
  simp [execLoop, hs, hp]

theorem execLoop_length (stop : Nat → Bool) (provider : Nat → PResult) (ref_map : String) :
    ∀ (tasks : List Task) (i c : Nat),
      (execLoop stop provider ref_map i c tasks).tasks.length = tasks.length := by
  intro tasks
  induction tasks with
  | nil => intro i c; rfl
  | cons t rest ih =>
    intro i c
    cases hs : stop i with
    | true => by_cases hp : t.status = "processing" <;> simp [execLoop_cons_stop hs, hp]
    | false =>
      by_cases hpend : t.status = "pending"
      · rw [execLoop_cons_pending hs hpend]
        simp [ih]
      · rw [execLoop_cons_skip hs hpend]
        simp [ih]

theorem execLoop_static (stop : Nat → Bool) (provider : Nat → PResult) (ref_map : String) :
    ∀ (tasks : List Task) (i c n : Nat),
      ((execLoop stop provider ref_map i c tasks).tasks[n]?).map staticFields
        = (tasks[n]?).map staticFields := by
  intro tasks
  induction tasks with
  | nil => intro i c n; simp [execLoop]
  | cons t rest ih =>
    intro i c n
    cases hs : stop i with
    | true =>
      rw [execLoop_cons_stop hs]
      cases n with
      | zero =>
        by_cases hp : t.status = "processing" <;> simp [hp, staticFields]
      | succ m => simp
    | false =>
      by_cases hpend : t.status = "pending"
      · rw [execLoop_cons_pending hs hpend]
        cases n with
        | zero =>
          have hra := runAttempts_static provider
            (selectStrategy ref_map { t with status := "processing" })
            { t with status := "processing" } 3 c
          have h2 : staticFields ({ t with status := "processing" } : Task)
              = staticFields t := rfl
          simp only [List.getElem?_cons_zero, Option.map_some']
          rw [hra, h2]
        | succ m => simpa using ih (i + 1) _ (m)
      · rw [execLoop_cons_skip hs hpend]
        cases n with
        | zero => simp
        | succ m => simpa using ih (i + 1) c m

theorem execLoop_mem (stop : Nat → Bool) (provider : Nat → PResult) (ref_map : String) :
    ∀ (tasks : List Task) (i c : Nat),
      ∀ t' ∈ (execLoop stop provider ref_map i c tasks).tasks,
        ∃ nt ∈ tasks, staticFields t' = staticFields nt ∧
          (t'.status = nt.status
           ∨ (nt.status = "pending" ∧ (t'.status = "success" ∨ t'.status = "failed"))
           ∨ (nt.status = "processing" ∧ t'.status = "pending")) := by
  intro tasks
  induction tasks with
  | nil => intro i c t' ht'; simp [execLoop] at ht'
  | cons t rest ih =>
    intro i c t' ht'
    cases hs : stop i with
    | true =>
      rw [execLoop_cons_stop hs] at ht'
      rcases List.mem_cons.mp ht' with heq | hmem
      · by_cases hp : t.status = "processing"
        · rw [if_pos hp] at heq
          subst heq
          refine ⟨t, List.mem_cons_self _ _, rfl, ?_⟩
          right; right; exact ⟨hp, rfl⟩
        · rw [if_neg hp] at heq
          subst heq
          exact ⟨t', List.mem_cons_self _ _, rfl, Or.inl rfl⟩
      · exact ⟨t', List.mem_cons_of_mem _ hmem, rfl, Or.inl rfl⟩
    | false =>
      by_cases hpend : t.status = "pending"
      · rw [execLoop_cons_pending hs hpend] at ht'
        rcases List.mem_cons.mp ht' with heq | hmem
        · refine ⟨t, List.mem_cons_self _ _, ?_, ?_⟩
          · rw [heq, runAttempts_static]
            rfl
          · rw [heq]
            right; left
            refine ⟨hpend, ?_⟩
            rcases runAttempts_status provider
                (selectStrategy ref_map { t with status := "processing" })
                { t with status := "processing" } 3 c with hst | hst
            · right; exact hst
            · left; exact hst
        · obtain ⟨nt, hntm, hfs, hrel⟩ := ih (i + 1) _ t' hmem
          exact ⟨nt, List.mem_cons_of_mem _ hntm, hfs, hrel⟩
      · rw [execLoop_cons_skip hs hpend] at ht'
        rcases List.mem_cons.mp ht' with heq | hmem
        · refine ⟨t, List.mem_cons_self _ _, ?_, ?_⟩
          · rw [heq]
          · rw [heq]; exact Or.inl rfl
        · obtain ⟨nt, hntm, hfs, hrel⟩ := ih (i + 1) c t' hmem
          exact ⟨nt, List.mem_cons_of_mem _ hntm, hfs, hrel⟩

theorem countP_three_statuses :
    ∀ {l : List Task},
      (∀ t ∈ l, t.status = "pending" ∨ t.status = "success" ∨ t.status = "failed") →
      l.countP (fun t => t.status == "pending") + l.countP (fun t => t.status == "success")
        + l.countP (fun t => t.status == "failed") = l.length := by
  intro l
  induction l with
  | nil => intro _; simp
  | cons a rest ih =>
    intro h
    have ha := h a (List.mem_cons_self _ _)
    have hr := ih (fun t ht => h t (List.mem_cons_of_mem _ ht))
    rcases ha with h1 | h1 | h1 <;> simp [List.countP_cons, h1] <;> omega

theorem merged_status_cases (old_tasks new_tasks : List Task)
    (hfresh : ∀ t ∈ new_tasks, t.status = "pending") :
    ∀ t ∈ run_smart_merge old_tasks new_tasks,
      t.status = "pending" ∨ t.status = resetStatus t.status := by
  intro t ht
  rw [run_smart_merge, List.mem_map] at ht
  obtain ⟨nt, hnt, rfl⟩ := ht
  cases hl : lookupLast old_tasks nt.chunk_hash with
  | some ot =>
    simp only [hl]
    right
    show resetStatus ot.status = resetStatus (resetStatus ot.status)
    by_cases hc : ot.status = "failed" ∨ ot.status = "processing"
    · rw [resetStatus, if_pos hc]; rfl
    · rw [resetStatus, if_neg hc, resetStatus, if_neg hc]
  | none =>
    simp only [hl]
    left
    exact hfresh nt hnt

theorem merged_three_statuses (old_tasks new_tasks : List Task)
    (hold : ∀ o ∈ old_tasks, o.status = "pending" ∨ o.status = "processing"
            ∨ o.status = "success" ∨ o.status = "failed")
    (hfresh : ∀ t ∈ new_tasks, t.status = "pending") :
    ∀ t ∈ run_smart_merge old_tasks new_tasks,
      t.status = "pending" ∨ t.status = "success" ∨ t.status = "failed" := by
  intro t ht
  rw [run_smart_merge, List.mem_map] at ht
  obtain ⟨nt, hnt, rfl⟩ := ht
  cases hl : lookupLast old_tasks nt.chunk_hash with
  | some ot =>
    simp only [hl]
    obtain ⟨hmem, _⟩ := lookupLast_mem hl
    have ho := hold ot hmem
    show resetStatus ot.status = "pending" ∨ resetStatus ot.status = "success"
      ∨ resetStatus ot.status = "failed"
    rcases ho with h1 | h1 | h1 | h1 <;> rw [h1] <;> simp [resetStatus]
  | none =>
    simp only [hl]
    left
    exact hfresh nt hnt

/-- C4: under cancellation (or any gate behaviour at all) the run leaves a
snapshot with zero processing tasks whose pending, success and failed counts
partition the full task count; the final checkpoint is exactly the final task
list; and a stop signal present at the very first poll means no provider call
is made and the merged tasks are returned untouched. -/
theorem c4_main (stop : Nat → Bool) (provider : Nat → PResult)
    (old_tasks new_tasks : List Task) (raw_refs ref_map : String)
    (hold : ∀ o ∈ old_tasks, o.status = "pending" ∨ o.status = "processing"
            ∨ o.status = "success" ∨ o.status = "failed")
    (hfresh : ∀ t ∈ new_tasks, t.status = "pending") :
    (run_smart_analysis stop provider old_tasks new_tasks raw_refs ref_map).tasks.length
        = new_tasks.length
    ∧ (∀ t ∈ (run_smart_analysis stop provider old_tasks new_tasks raw_refs ref_map).tasks,
        t.status = "pending" ∨ t.status = "success" ∨ t.status = "failed")
    ∧ (run_smart_analysis stop provider old_tasks new_tasks raw_refs ref_map).tasks.countP
        (fun t => t.status == "processing") = 0
    ∧ (run_smart_analysis stop provider old_tasks new_tasks raw_refs ref_map).tasks.countP
          (fun t => t.status == "pending")
        + (run_smart_analysis stop provider old_tasks new_tasks raw_refs ref_map).tasks.countP
          (fun t => t.status == "success")
        + (run_smart_analysis stop provider old_tasks new_tasks raw_refs ref_map).tasks.countP
          (fun t => t.status == "failed") = new_tasks.length
    ∧ (run_smart_analysis stop provider old_tasks new_tasks raw_refs ref_map).saves.getLast?
        = some (run_smart_analysis stop provider old_tasks new_tasks raw_refs ref_map).tasks
    ∧ (stop 0 = true →
        (run_smart_analysis stop provider old_tasks new_tasks raw_refs ref_map).calls = 0
        ∧ (run_smart_analysis stop provider old_tasks new_tasks raw_refs ref_map).tasks
            = run_smart_merge old_tasks new_tasks) := by
  have hm3 := merged_three_statuses old_tasks new_tasks hold hfresh
  have hmlen : (run_smart_merge old_tasks new_tasks).length = new_tasks.length := by
    rw [run_smart_merge]; exact List.length_map _ _
  by_cases hemp : ((run_smart_merge old_tasks new_tasks).filter
      (fun t => t.status == "pending")).isEmpty = true
  · have htasks : (run_smart_analysis stop provider old_tasks new_tasks raw_refs ref_map).tasks
        = run_smart_merge old_tasks new_tasks := by
      simp [run_smart_analysis, hemp]
    have hcalls : (run_smart_analysis stop provider old_tasks new_tasks raw_refs ref_map).calls
        = 0 := by
      simp [run_smart_analysis, hemp]
    have hsaves : (run_smart_analysis stop provider old_tasks new_tasks raw_refs ref_map).saves
        = [(run_smart_merge old_tasks new_tasks)] := by
      simp [run_smart_analysis, hemp]
    refine ⟨?_, ?_, ?_, ?_, ?_, ?_⟩
    · rw [htasks, hmlen]
    · rw [htasks]; exact hm3
    · rw [htasks, List.countP_eq_zero]
      intro t ht
      rcases hm3 t ht with h1 | h1 | h1 <;> simp [h1]
    · rw [htasks, ← hmlen]
      exact countP_three_statuses hm3
    · rw [htasks, hsaves]; rfl
    · intro _; exact ⟨hcalls, htasks⟩
  · have htasks : (run_smart_analysis stop provider old_tasks new_tasks raw_refs ref_map).tasks
        = (execLoop stop provider ref_map 0 0 (run_smart_merge old_tasks new_tasks)).tasks := by
      simp [run_smart_analysis, hemp]
    have hsaves : (run_smart_analysis stop provider old_tasks new_tasks raw_refs ref_map).saves
        = (execLoop stop provider ref_map 0 0 (run_smart_merge old_tasks new_tasks)).saves
          ++ [(execLoop stop provider ref_map 0 0 (run_smart_merge old_tasks new_tasks)).tasks] := by
      simp [run_smart_analysis, hemp]
    have hcalls : (run_smart_analysis stop provider old_tasks new_tasks raw_refs ref_map).calls
        = (execLoop stop provider ref_map 0 0 (run_smart_merge old_tasks new_tasks)).calls := by
      simp [run_smart_analysis, hemp]
    have hlen : (execLoop stop provider ref_map 0 0 (run_smart_merge old_tasks new_tasks)).tasks.length
        = new_tasks.length := by
      rw [execLoop_length, hmlen]
    have h3 : ∀ t ∈ (execLoop stop provider ref_map 0 0 (run_smart_merge old_tasks new_tasks)).tasks,
        t.status = "pending" ∨ t.status = "success" ∨ t.status = "failed" := by
      intro t' ht'
      obtain ⟨nt, hntm, _, hrel⟩ := execLoop_mem stop provider ref_map _ 0 0 t' ht'
      rcases hrel with h1 | ⟨_, h1 | h1⟩ | ⟨hp, h1⟩
      · rw [h1]; exact hm3 nt hntm
      · right; left; exact h1
      · right; right; exact h1
      · left; exact h1
    refine ⟨?_, ?_, ?_, ?_, ?_, ?_⟩
    · rw [htasks, hlen]
    · rw [htasks]; exact h3
    · rw [htasks, List.countP_eq_zero]
      intro t ht
      rcases h3 t ht with h1 | h1 | h1 <;> simp [h1]
    · rw [htasks, ← hlen]
      exact countP_three_statuses h3
    · rw [htasks, hsaves]
      simp
    · intro hstop
      refine ⟨?_, ?_⟩
      · rw [hcalls]
        cases hml : run_smart_merge old_tasks new_tasks with
        | nil => rfl
        | cons a l => rw [execLoop_cons_stop hstop]
      · rw [htasks]
        cases hml : run_smart_merge old_tasks new_tasks with
        | nil => rfl
        | cons a l =>
          rw [execLoop_cons_stop hstop]
          have ha : a.status ≠ "processing" := by
            have := hm3 a (by rw [hml]; exact List.mem_cons_self _ _)
            rcases this with h1 | h1 | h1 <;> rw [h1] <;> decide
          simp [ha]

/-- Witness for `c4_main`: cancellation signalled from the start with one
pending task leaves it pending, with zero processing tasks and no call. -/
theorem c4_witness :
    (∀ t ∈ [({ id := 0, type := "body", chunk_hash := "h", status := "pending",
               src := "S", trans := "", user_hint := "", old_trans := "" } : Task)],
        t.status = "pending")
    ∧ (run_smart_analysis (fun _ => true) (fun _ => PResult.err) []
        [{ id := 0, type := "body", chunk_hash := "h", status := "pending",
           src := "S", trans := "", user_hint := "", old_trans := "" }] "" "").tasks.countP
        (fun t => t.status == "processing") = 0
    ∧ (run_smart_analysis (fun _ => true) (fun _ => PResult.err) []
        [{ id := 0, type := "body", chunk_hash := "h", status := "pending",
           src := "S", trans := "", user_hint := "", old_trans := "" }] "" "").calls = 0 := by
  refine ⟨by decide, ?_, ?_⟩
  · exact (c4_main (fun _ => true) (fun _ => PResult.err) []
      [{ id := 0, type := "body", chunk_hash := "h", status := "pending",
         src := "S", trans := "", user_hint := "", old_trans := "" }] "" ""
      (by decide) (by decide)).2.2.1
  · exact ((c4_main (fun _ => true) (fun _ => PResult.err) []
      [{ id := 0, type := "body", chunk_hash := "h", status := "pending",
         src := "S", trans := "", user_hint := "", old_trans := "" }] "" ""
      (by decide) (by decide)).2.2.2.2.2 rfl).1

/-- Specification helper: the number of exception outcomes among n
consecutive provider calls starting at call number c. -/
def errCountIn (provider : Nat → PResult) : Nat → Nat → Nat
  | _, 0 => 0
  | c, n + 1 => (if isErr (provider c) then 1 else 0) + errCountIn provider (c + 1) n

theorem runAttempts_all_fail (provider : Nat → PResult) (strat : Strategy) (t : Task) :
    ∀ (n c : Nat),
      (∀ j, j < n → provider (c + j) = PResult.err
        ∨ ∃ s, provider (c + j) = PResult.ok s ∧ stripFences s = "") →
      (runAttempts provider strat t c n).task = { t with status := "failed" }
      ∧ (runAttempts provider strat t c n).calls = c + n
      ∧ (runAttempts provider strat t c n).evs.countP isSleep = errCountIn provider c n
      ∧ (runAttempts provider strat t c n).evs.countP (fun e => !(isSleep e)) = n := by
  intro n
  induction n with
  | zero =>
    intro c _
    exact ⟨rfl, rfl, rfl, rfl⟩
  | succ n ih =>
    intro c hf
    have hf0 := hf 0 (Nat.succ_pos n)
    rw [Nat.add_zero] at hf0
    have hfr : ∀ j, j < n → provider ((c + 1) + j) = PResult.err
        ∨ ∃ s, provider ((c + 1) + j) = PResult.ok s ∧ stripFences s = "" := by
      intro j hj
      have := hf (j + 1) (by omega)
      rwa [show c + (j + 1) = (c + 1) + j by omega] at this
    obtain ⟨ht, hc, hsl, hca⟩ := ih (c + 1) hfr
    rcases hf0 with herr | ⟨s, hok, hemp⟩
    · refine ⟨?_, ?_, ?_, ?_⟩
      · simp only [runAttempts, herr]; exact ht
      · simp only [runAttempts, herr]; rw [hc]; omega
      · simp only [runAttempts, herr, List.countP_cons]
        rw [hsl]
        simp only [errCountIn, herr]
        simp [isSleep, isErr]
        omega
      · simp only [runAttempts, herr, List.countP_cons]
        rw [hca]
        simp [isSleep]
    · refine ⟨?_, ?_, ?_, ?_⟩
      · simp only [runAttempts, hok, hemp]
        simp only [ite_true]
        exact ht
      · simp only [runAttempts, hok, hemp]
        simp only [ite_true]
        rw [hc]; omega
      · simp only [runAttempts, hok, hemp]
        simp only [ite_true, List.countP_cons]
        rw [hsl]
        simp only [errCountIn, hok]
        simp [isSleep, isErr]
      · simp only [runAttempts, hok, hemp]
        simp only [ite_true, List.countP_cons]
        rw [hca]
        simp [isSleep]

/-- C5 counterexample: a provider that always returns an empty response makes
all three attempts fail, yet no delay event at all separates the failed
attempts (the 2-second sleep lives only in the exception handler), refuting
"retried ... with a short delay between failed attempts". -/
theorem c5_counterexample :
    (runAttempts (fun _ => PResult.ok "") ⟨"m", "s", "u"⟩
      { id := 0, type := "body", chunk_hash := "h", status := "processing",
        src := "S", trans := "", user_hint := "", old_trans := "" } 0 3).task.status = "failed"
    ∧ (runAttempts (fun _ => PResult.ok "") ⟨"m", "s", "u"⟩
      { id := 0, type := "body", chunk_hash := "h", status := "processing",
        src := "S", trans := "", user_hint := "", old_trans := "" } 0 3).evs.length = 3
    ∧ (runAttempts (fun _ => PResult.ok "") ⟨"m", "s", "u"⟩
      { id := 0, type := "body", chunk_hash := "h", status := "processing",
        src := "S", trans := "", user_hint := "", old_trans := "" } 0 3).evs.countP isSleep
      = 0 := by
  refine ⟨rfl, rfl, rfl⟩

/-- C5 (amended): a failing invocation (exception or empty response) is
retried up to 3 attempts; a delay follows exactly the attempts that raised an
exception, while empty-response attempts retry immediately; when all attempts
fail the task is marked failed and the loop proceeds to the remaining tasks
with the call counter advanced by 3. -/
theorem c5_main (stop : Nat → Bool) (provider : Nat → PResult) (ref_map : String)
    (i c : Nat) (t : Task) (rest : List Task)
    (hs : stop i = false) (hp : t.status = "pending")
    (hf : ∀ j, j < 3 → provider (c + j) = PResult.err
        ∨ ∃ s, provider (c + j) = PResult.ok s ∧ stripFences s = "") :
    (execLoop stop provider ref_map i c (t :: rest)).tasks
      = { t with status := "failed" }
        :: (execLoop stop provider ref_map (i + 1) (c + 3) rest).tasks
    ∧ (runAttempts provider (selectStrategy ref_map { t with status := "processing" })
        { t with status := "processing" } c 3).task = { t with status := "failed" }
    ∧ (runAttempts provider (selectStrategy ref_map { t with status := "processing" })
        { t with status := "processing" } c 3).calls = c + 3
    ∧ (runAttempts provider (selectStrategy ref_map { t with status := "processing" })
        { t with status := "processing" } c 3).evs.countP isSleep
        = errCountIn provider c 3
    ∧ (runAttempts provider (selectStrategy ref_map { t with status := "processing" })
        { t with status := "processing" } c 3).evs.countP (fun e => !(isSleep e)) = 3 := by
  obtain ⟨ht, hc, hsl, hca⟩ := runAttempts_all_fail provider
    (selectStrategy ref_map { t with status := "processing" })
    { t with status := "processing" } 3 c hf
  have ht' : (runAttempts provider (selectStrategy ref_map { t with status := "processing" })
      { t with status := "processing" } c 3).task = { t with status := "failed" } := ht
  refine ⟨?_, ht', hc, hsl, hca⟩
  rw [execLoop_cons_pending hs hp, ht', hc]

/-- Witness for `c5_main` with an always-empty provider: the task fails
after three undelayed attempts and the loop would continue behind it. -/
theorem c5_witness :
    ((fun _ : Nat => false) 0 = false)
    ∧ (execLoop (fun _ => false) (fun _ => PResult.ok "") "RM" 0 0
        [{ id := 0, type := "body", chunk_hash := "h", status := "pending",
           src := "S", trans := "", user_hint := "", old_trans := "" }]).tasks
      = [{ id := 0, type := "body", chunk_hash := "h", status := "failed",
           src := "S", trans := "", user_hint := "", old_trans := "" }] := by
  refine ⟨rfl, ?_⟩
  have h := (c5_main (fun _ => false) (fun _ => PResult.ok "") "RM" 0 0
    { id := 0, type := "body", chunk_hash := "h", status := "pending",
      src := "S", trans := "", user_hint := "", old_trans := "" } []
    rfl rfl (by intro j hj; right; exact ⟨"", rfl, rfl⟩)).1
  rw [h]
  rfl

theorem runAttempts_success (provider : Nat → PResult) (strat : Strategy) (u : Task)
    (c : Nat) (s : String) (hok : provider c = PResult.ok s) (hne : stripFences s ≠ "") :
    runAttempts provider strat u c 3 =
      ⟨{ u with trans := pyStrip (stripFences s), status := "success" }, c + 1,
        [Ev.call strat.model strat.sysPrompt strat.userContent]⟩ := by
  simp only [runAttempts, hok]
  rw [if_neg hne]

theorem map_hint_old (x : Option Task) :
    x.map (fun t => (t.user_hint, t.old_trans))
      = (x.map staticFields).map (fun p => p.2.2.2.2) := by
  cases x <;> rfl

theorem update_feedback_split :
    ∀ (tasks : List Task) (tid : Nat) (hint : String),
      (∃ t ∈ tasks, t.id = tid) →
      (update_feedback tasks tid hint).2 = true
      ∧ ∃ pre nt post,
          tasks = pre ++ nt :: post
          ∧ (∀ x ∈ pre, x.id ≠ tid)
          ∧ nt.id = tid
          ∧ (update_feedback tasks tid hint).1
              = pre ++ { nt with
                  old_trans := nt.trans, user_hint := hint,
                  status := "pending", trans := "" } :: post := by
  intro tasks
  induction tasks with
  | nil => intro tid hint hex; simp at hex
  | cons t rest ih =>
    intro tid hint hex
    by_cases hid : t.id = tid
    · refine ⟨?_, [], t, rest, by simp, by simp, hid, ?_⟩
      · simp [update_feedback, hid]
      · simp [update_feedback, hid]
    · obtain ⟨x, hx, hxid⟩ := hex
      rcases List.mem_cons.mp hx with rfl | hx2
      · exact absurd hxid hid
      · obtain ⟨hfound, pre, nt, post, hsplit, hpre, hntid, hupd⟩ := ih tid hint ⟨x, hx2, hxid⟩
        refine ⟨?_, t :: pre, nt, post, ?_, ?_, hntid, ?_⟩
        · simp [update_feedback, hid, hfound]
        · simp [hsplit]
        · intro y hy
          rcases List.mem_cons.mp hy with rfl | hy2
          · exact hid
          · exact hpre y hy2
        · simp [update_feedback, hid, hupd]

/-- C6: a correction submission naming an existing task id archives that
task's translation into old_trans, stores the hint, resets the status to
pending (clearing the translation), leaves every other task unchanged, and a
subsequent execution never modifies user_hint or old_trans while a successful
provider response installs a fresh translation with status success. -/
theorem c6_main (tasks : List Task) (tid : Nat) (hint : String)
    (hex : ∃ t ∈ tasks, t.id = tid) :
    (update_feedback tasks tid hint).2 = true
    ∧ (∃ pre nt post,
        tasks = pre ++ nt :: post
        ∧ (∀ x ∈ pre, x.id ≠ tid)
        ∧ nt.id = tid
        ∧ (update_feedback tasks tid hint).1
            = pre ++ { nt with
                old_trans := nt.trans, user_hint := hint,
                status := "pending", trans := "" } :: post)
    ∧ (∀ (stop : Nat → Bool) (provider : Nat → PResult) (ref_map : String) (i c n : Nat),
        ((execLoop stop provider ref_map i c (update_feedback tasks tid hint).1).tasks[n]?).map
            (fun t => (t.user_hint, t.old_trans))
          = ((update_feedback tasks tid hint).1[n]?).map (fun t => (t.user_hint, t.old_trans)))
    ∧ (∀ (provider : Nat → PResult) (strat : Strategy) (u : Task) (c : Nat) (s : String),
        provider c = PResult.ok s → stripFences s ≠ "" →
        runAttempts provider strat u c 3
          = ⟨{ u with trans := pyStrip (stripFences s), status := "success" }, c + 1,
             [Ev.call strat.model strat.sysPrompt strat.userContent]⟩) := by
  obtain ⟨hfound, hsplit⟩ := update_feedback_split tasks tid hint hex
  refine ⟨hfound, hsplit, ?_, ?_⟩
  · intro stop provider ref_map i c n
    rw [map_hint_old, map_hint_old, execLoop_static]
  · intro provider strat u c s hok hne
    exact runAttempts_success provider strat u c s hok hne

/-- Witness for `c6_main`: correcting the only (successful) task archives
its translation and marks it pending. -/
theorem c6_witness :
    (∃ t ∈ [({ id := 0, type := "body", chunk_hash := "h", status := "success",
               src := "S", trans := "OLD", user_hint := "", old_trans := "" } : Task)],
        t.id = 0)
    ∧ (update_feedback
        [{ id := 0, type := "body", chunk_hash := "h", status := "success",
           src := "S", trans := "OLD", user_hint := "", old_trans := "" }] 0 "H").2 = true
    ∧ (update_feedback
        [{ id := 0, type := "body", chunk_hash := "h", status := "success",
           src := "S", trans := "OLD", user_hint := "", old_trans := "" }] 0 "H").1
      = [{ id := 0, type := "body", chunk_hash := "h", status := "pending",
           src := "S", trans := "", user_hint := "H", old_trans := "OLD" }] := by
  refine ⟨by decide, ?_, by decide⟩
  exact (c6_main
    [{ id := 0, type := "body", chunk_hash := "h", status := "success",
       src := "S", trans := "OLD", user_hint := "", old_trans := "" }] 0 "H"
    (by decide)).1

theorem selectStrategy_correction (ref_map : String) (t : Task)
    (h : pyStrip t.user_hint ≠ "" ∧ pyStrip t.old_trans ≠ "") :
    selectStrategy ref_map t =
      { model := MODEL_STRONG, sysPrompt := SYSTEM_PROMPT_CORRECTION,
        userContent := correction_user_content ref_map t.src
          (pyStrip t.old_trans) (pyStrip t.user_hint) } := by
  simp only [selectStrategy]
  rw [if_pos h]

theorem selectStrategy_first_pass (ref_map : String) (t : Task)
    (h : ¬(pyStrip t.user_hint ≠ "" ∧ pyStrip t.old_trans ≠ "")) :
    selectStrategy ref_map t =
      { model := MODEL_NORMAL,
        sysPrompt := if strContains (promptMap ref_map t.type) "{ref_map_str}"
          then pyReplace (promptMap ref_map t.type) "{ref_map_str}" ref_map
          else promptMap ref_map t.type,
        userContent := t.src } := by
  simp only [selectStrategy]
  rw [if_neg h]

theorem selectStrategy_ignores_status (ref_map : String) (t : Task) (s : String) :
    selectStrategy ref_map { t with status := s } = selectStrategy ref_map t := rfl

theorem runAttempts_first_ev (provider : Nat → PResult) (strat : Strategy) (t : Task)
    (c n : Nat) (hn : 0 < n) :
    (runAttempts provider strat t c n).evs.head?
      = some (Ev.call strat.model strat.sysPrompt strat.userContent) := by
  cases n with
  | zero => omega
  | succ n =>
    cases hp : provider c with
    | err => simp [runAttempts, hp]
    | ok s => by_cases hc : stripFences s = "" <;> simp [runAttempts, hp, hc]

/-- C7: a task is executed as a correction (strong model, correction system
prompt, user message containing the source text, the superseded translation,
the user instruction and the reference map) exactly when both its stripped
user hint and its stripped previous translation are non-empty; otherwise it
is executed as a first pass on the normal model with the source text as user
message and a system prompt selected by its type, falling back to the body
prompt for unknown types; moreover the execution loop issues exactly the
selected strategy on the first provider call of a pending head task. -/
theorem c7_main (ref_map : String) (t : Task) (stop : Nat → Bool)
    (provider : Nat → PResult) (i c : Nat) (rest : List Task) :
    ((pyStrip t.user_hint ≠ "" ∧ pyStrip t.old_trans ≠ "") →
      (selectStrategy ref_map t).model = MODEL_STRONG
      ∧ (selectStrategy ref_map t).sysPrompt = SYSTEM_PROMPT_CORRECTION
      ∧ strOccurs (selectStrategy ref_map t).userContent t.src
      ∧ strOccurs (selectStrategy ref_map t).userContent (pyStrip t.old_trans)
      ∧ strOccurs (selectStrategy ref_map t).userContent (pyStrip t.user_hint)
      ∧ strOccurs (selectStrategy ref_map t).userContent ref_map)
    ∧ (¬(pyStrip t.user_hint ≠ "" ∧ pyStrip t.old_trans ≠ "") →
      (selectStrategy ref_map t).model = MODEL_NORMAL
      ∧ (selectStrategy ref_map t).userContent = t.src
      ∧ (t.type = "meta" → (selectStrategy ref_map t).sysPrompt = SYSTEM_PROMPT_META)
      ∧ (t.type = "header" → (selectStrategy ref_map t).sysPrompt = SYSTEM_PROMPT_HEADER)
      ∧ (t.type = "body" → (selectStrategy ref_map t).sysPrompt = SYSTEM_PROMPT_BODY)
      ∧ (t.type = "asset" → (selectStrategy ref_map t).sysPrompt
          = pyReplace SYSTEM_PROMPT_ASSET "{ref_map_str}" ref_map)
      ∧ (t.type ≠ "meta" → t.type ≠ "header" → t.type ≠ "body" → t.type ≠ "asset" →
          (selectStrategy ref_map t).sysPrompt = SYSTEM_PROMPT_BODY))
    ∧ (stop i = false → t.status = "pending" →
        (execLoop stop provider ref_map i c (t :: rest)).evs.head?
          = some (Ev.call (selectStrategy ref_map t).model
              (selectStrategy ref_map t).sysPrompt
              (selectStrategy ref_map t).userContent)) := by
  refine ⟨?_, ?_, ?_⟩
  · intro h
    rw [selectStrategy_correction ref_map t h]
    refine ⟨rfl, rfl, ?_, ?_, ?_, ?_⟩
    · refine ⟨"【原文】:\n",
        "\n\n" ++ "【旧译文(有误)】:\n" ++ pyStrip t.old_trans ++ "\n\n"
          ++ "【用户指引(最高优先级)】:\n" ++ pyStrip t.user_hint ++ "\n"
          ++ ref_map_instruction ref_map, ?_⟩
      simp [correction_user_content, String.append_assoc]
    · refine ⟨"【原文】:\n" ++ t.src ++ "\n\n" ++ "【旧译文(有误)】:\n",
        "\n\n" ++ "【用户指引(最高优先级)】:\n" ++ pyStrip t.user_hint ++ "\n"
          ++ ref_map_instruction ref_map, ?_⟩
      simp [correction_user_content, String.append_assoc]
    · refine ⟨"【原文】:\n" ++ t.src ++ "\n\n" ++ "【旧译文(有误)】:\n"
          ++ pyStrip t.old_trans ++ "\n\n" ++ "【用户指引(最高优先级)】:\n",
        "\n" ++ ref_map_instruction ref_map, ?_⟩
      simp [correction_user_content, String.append_assoc]
    · refine ⟨"【原文】:\n" ++ t.src ++ "\n\n" ++ "【旧译文(有误)】:\n"
          ++ pyStrip t.old_trans ++ "\n\n" ++ "【用户指引(最高优先级)】:\n"
          ++ pyStrip t.user_hint ++ "\n"
          ++ "\n\n【必须遵守的资源引用规则】\n"
          ++ "如果用户要求添加图表链接，请严格查阅下表，使用 [[LINK:资源ID|原文]] 格式。\n"
          ++ "例如: 原文 \x27see Fig. 1\x27 -> 译文 \x27见 [[LINK:Figure_1|图 1]]\x27。\n"
          ++ "--- Resource Map (ID Mapping) ---\n",
        "\n" ++ "---------------------------------", ?_⟩
      simp only [correction_user_content, ref_map_instruction, String.append_assoc]
  · intro h
    rw [selectStrategy_first_pass ref_map t h]
    refine ⟨rfl, rfl, ?_, ?_, ?_, ?_, ?_⟩
    · intro ht; rw [ht]; rfl
    · intro ht; rw [ht]; rfl
    · intro ht; rw [ht]; rfl
    · intro ht; rw [ht]; rfl
    · intro h1 h2 h3 h4
      have hpm : promptMap ref_map t.type = SYSTEM_PROMPT_BODY := by
        unfold promptMap
        rw [if_neg h1, if_neg h2, if_neg h3, if_neg h4]
      show (if strContains (promptMap ref_map t.type) "{ref_map_str}"
            then pyReplace (promptMap ref_map t.type) "{ref_map_str}" ref_map
            else promptMap ref_map t.type) = SYSTEM_PROMPT_BODY
      rw [hpm]
      rfl
  · intro hs hp
    rw [execLoop_cons_pending hs hp]
    have hsel := selectStrategy_ignores_status ref_map t "processing"
    have hfe := runAttempts_first_ev provider
      (selectStrategy ref_map { t with status := "processing" })
      { t with status := "processing" } c 3 (by omega)
    cases hevs : (runAttempts provider
        (selectStrategy ref_map { t with status := "processing" })
        { t with status := "processing" } c 3).evs with
    | nil => rw [hevs] at hfe; simp at hfe
    | cons e es =>
      rw [hevs] at hfe
      simp only [List.head?_cons, Option.some.injEq] at hfe
      simp only [hevs, List.cons_append, List.head?_cons, hfe, hsel]

/-- Witness for `c7_main`: a task carrying a hint and an old translation
runs in correction mode on the strong model. -/
theorem c7_witness :
    (pyStrip "H" ≠ "" ∧ pyStrip "O" ≠ "")
    ∧ (selectStrategy "RM"
        { id := 0, type := "body", chunk_hash := "h", status := "pending",
          src := "S", trans := "", user_hint := "H", old_trans := "O" }).model
      = MODEL_STRONG := by
  refine ⟨by decide, ?_⟩
  exact ((c7_main "RM"
    { id := 0, type := "body", chunk_hash := "h", status := "pending",
      src := "S", trans := "", user_hint := "H", old_trans := "O" }
    (fun _ => false) (fun _ => PResult.err) 0 0 []).1 (by decide)).1

theorem event_generator_done_le_one :
    ∀ (ticks : List Tick) (lastMod : Nat),
      (event_generator lastMod ticks).1.count SseEv.done ≤ 1 := by
  intro ticks
  induction ticks with
  | nil => intro lastMod; simp [event_generator]
  | cons tk rest ih =>
    intro lastMod
    cases tk with
    | absent => simpa [event_generator] using ih lastMod
    | present m r =>
      by_cases hm : m > lastMod
      · cases r with
        | none =>
          simp only [event_generator, if_pos hm]
          exact ih m
        | some tasks =>
          by_cases hdone : tasks ≠ [] ∧ tasks.all (fun t => t.status == "success")
          · simp [event_generator, hm, hdone, List.count_cons]
          · simp only [event_generator, if_pos hm, if_neg hdone]
            simpa [List.count_cons] using ih m
      · simp only [event_generator, if_neg hm]
        exact ih lastMod

theorem event_generator_done_shape :
    ∀ (ticks : List Tick) (lastMod : Nat),
      SseEv.done ∈ (event_generator lastMod ticks).1 →
      (event_generator lastMod ticks).2 = true
      ∧ ∃ pre ts, (event_generator lastMod ticks).1 = pre ++ [SseEv.snapshot ts, SseEv.done]
          ∧ ts ≠ [] ∧ ts.all (fun t => t.status == "success") = true := by
  intro ticks
  induction ticks with
  | nil => intro lastMod hmem; simp [event_generator] at hmem
  | cons tk rest ih =>
    intro lastMod hmem
    cases tk with
    | absent =>
      simp only [event_generator] at hmem ⊢
      exact ih lastMod hmem
    | present m r =>
      by_cases hm : m > lastMod
      · cases r with
        | none =>
          simp only [event_generator, if_pos hm] at hmem ⊢
          exact ih m hmem
        | some tasks =>
          by_cases hdone : tasks ≠ [] ∧ tasks.all (fun t => t.status == "success")
          · simp only [event_generator, if_pos hm, if_pos hdone]
            exact ⟨trivial, [], tasks, rfl, hdone.1, by simpa using hdone.2⟩
          · simp only [event_generator, if_pos hm, if_neg hdone] at hmem ⊢
            rcases List.mem_cons.mp hmem with heq | hmem2
            · exact absurd heq.symm (by simp)
            · obtain ⟨hterm, pre, ts, hevs, hne, hall⟩ := ih m hmem2
              exact ⟨hterm, SseEv.snapshot tasks :: pre, ts, by rw [hevs]; rfl, hne, hall⟩
      · simp only [event_generator, if_neg hm] at hmem ⊢
        exact ih lastMod hmem

/-- C8 counterexample: the snapshot becomes readable and fully successful at
modification time 1, but the failed read of the previous tick already
recorded time 1 as seen, so the next tick is not read at all: no snapshot
event and no terminal done event is ever emitted, refuting both "reading is
retried on the next interval" and "emits its terminal done event exactly
once". -/
theorem c8_counterexample :
    event_generator 0
      [Tick.present 1 none,
       Tick.present 1 (some
         [{ id := 0, type := "body", chunk_hash := "h", status := "success",
            src := "S", trans := "T", user_hint := "", old_trans := "" }])]
      = ([], false)
    ∧ ([({ id := 0, type := "body", chunk_hash := "h", status := "success",
           src := "S", trans := "T", user_hint := "", old_trans := "" } : Task)].all
        (fun t => t.status == "success")) = true := by
  constructor
  · rfl
  · rfl

/-- C8 (amended): the done event is emitted at most once, and exactly when a
successfully read snapshot is non-empty with every task success, after which
the stream loop ends (done is the final event); a read failure on a tick
emits nothing and does not terminate the stream, but it records the advanced
modification time, so the read is reattempted only once the modification
time advances again, not merely on the next interval. -/
theorem c8_main (lastMod : Nat) (ticks : List Tick) :
    (event_generator lastMod ticks).1.count SseEv.done ≤ 1
    ∧ (SseEv.done ∈ (event_generator lastMod ticks).1 →
        (event_generator lastMod ticks).2 = true
        ∧ ∃ pre ts, (event_generator lastMod ticks).1
              = pre ++ [SseEv.snapshot ts, SseEv.done]
            ∧ ts ≠ [] ∧ ts.all (fun t => t.status == "success") = true)
    ∧ (∀ (m : Nat) (rest : List Tick),
        event_generator lastMod (Tick.present m none :: rest)
          = if m > lastMod then event_generator m rest
            else event_generator lastMod rest) := by
  refine ⟨event_generator_done_le_one ticks lastMod, ?_, ?_⟩
  · intro hmem
    exact event_generator_done_shape ticks lastMod hmem
  · intro m rest
    by_cases hm : m > lastMod <;> simp [event_generator, hm]

/-- Witness for `c8_main`: a readable all-success snapshot at an advanced
modification time terminates the stream right after the done event. -/
theorem c8_witness :
    SseEv.done ∈ (event_generator 0
      [Tick.present 1 (some
        [{ id := 0, type := "body", chunk_hash := "h", status := "success",
           src := "S", trans := "T", user_hint := "", old_trans := "" }])]).1
    ∧ (event_generator 0
      [Tick.present 1 (some
        [{ id := 0, type := "body", chunk_hash := "h", status := "success",
           src := "S", trans := "T", user_hint := "", old_trans := "" }])]).2 = true := by
  refine ⟨by decide, ?_⟩
  exact ((c8_main 0
    [Tick.present 1 (some
      [{ id := 0, type := "body", chunk_hash := "h", status := "success",
         src := "S", trans := "T", user_hint := "", old_trans := "" }])]).2.1 (by decide)).1

/-- C9 counterexample: a text over the cap with no sentence boundary is
returned whole, exceeding the cap: there is no hard cut. -/
theorem c9_counterexample :
    split_long_buffer_safely "aaaa" 3 = ["aaaa"] ∧ ¬ (("aaaa" : String).length ≤ 3) := by
  constructor
  · rfl
  · decide

theorem accum_chunks_bound (max_len : Nat) (orig : List String) :
    ∀ (ss : List String) (cur : String),
      (∀ s ∈ ss, s ∈ orig) →
      (cur = "" ∨ cur ∈ orig ∨ cur.length ≤ max_len + 1) →
      ∀ c ∈ accum_chunks max_len ss cur, c ∈ orig ∨ c.length ≤ max_len + 1 := by
  intro ss
  induction ss with
  | nil =>
    intro cur hss hcur c hc
    by_cases hne : cur = ""
    · simp [accum_chunks, hne] at hc
    · simp only [accum_chunks, beq_iff_eq, if_neg hne, List.mem_singleton] at hc
      subst hc
      rcases hcur with h | h | h
      · exact absurd h hne
      · exact Or.inl h
      · exact Or.inr h
  | cons s rest ih =>
    intro cur hss hcur c hc
    have hs : s ∈ orig := hss s (List.mem_cons_self _ _)
    have hrest : ∀ x ∈ rest, x ∈ orig := fun x hx => hss x (List.mem_cons_of_mem _ hx)
    by_cases hcond : (cur.length + s.length > max_len && !(cur == "")) = true
    · simp only [accum_chunks, if_pos hcond] at hc
      rcases List.mem_cons.mp hc with heq | hc2
      · have hne : cur ≠ "" := by
          have := (Bool.and_eq_true _ _).mp hcond
          simpa using this.2
        subst heq
        rcases hcur with h | h | h
        · exact absurd h hne
        · exact Or.inl h
        · exact Or.inr h
      · exact ih s hrest (Or.inr (Or.inl hs)) c hc2
    · simp only [accum_chunks, if_neg hcond] at hc
      by_cases hb : cur = ""
      · rw [if_pos (by simpa using hb)] at hc
        exact ih s hrest (Or.inr (Or.inl hs)) c hc
      · rw [if_neg (by simpa using hb)] at hc
        have hle : cur.length + s.length ≤ max_len := by
          by_contra hgt
          apply hcond
          have h1 : (cur.length + s.length > max_len) = True := by
            simp; omega
          simp [h1, hb]
        refine ih (cur ++ " " ++ s) hrest (Or.inr (Or.inr ?_)) c hc
        rw [String.length_append, String.length_append]
        have : (" " : String).length = 1 := rfl
        omega

/-- C9 (amended): every chunk returned by `split_long_buffer_safely` either
is one of the regex-split sentences (which can exceed the cap: an oversized
sentence is returned uncut, with no hard cut at the cap) or has length at
most cap + 1, the extra character being the joining space the size check does
not count. -/
theorem c9_main (text : String) (max_len : Nat) :
    ∀ c ∈ split_long_buffer_safely text max_len,
      c ∈ split_sentences text ∨ c.length ≤ max_len + 1 := by
  intro c hc
  rw [split_long_buffer_safely] at hc
  by_cases hlen : text.length ≤ max_len
  · rw [if_pos hlen] at hc
    rcases List.mem_singleton.mp hc with rfl
    right; omega
  · rw [if_neg hlen] at hc
    exact accum_chunks_bound max_len (split_sentences text) (split_sentences text) ""
      (fun s hs => hs) (Or.inl rfl) c hc

/-- Witness for `c9_main`: the uncut over-cap chunk is one of the split
sentences. -/
theorem c9_witness :
    "aaaa" ∈ split_long_buffer_safely "aaaa" 3
    ∧ ("aaaa" ∈ split_sentences "aaaa" ∨ ("aaaa" : String).length ≤ 3 + 1) := by
  refine ⟨by decide, ?_⟩
  exact c9_main "aaaa" 3 "aaaa" (by decide)

/-- C10: the result file is exactly the translations of the success tasks of
the final snapshot, joined with newlines in task order, followed by the
reference block; tasks in any other status contribute nothing, since the
content depends only on the success-filtered task list. -/
theorem c10_main (stop : Nat → Bool) (provider : Nat → PResult)
    (old_tasks new_tasks : List Task) (raw_refs ref_map : String) :
    (run_smart_analysis stop provider old_tasks new_tasks raw_refs ref_map).output
      = String.intercalate "\n"
          (((run_smart_analysis stop provider old_tasks new_tasks raw_refs ref_map).tasks.filter
            (fun t => t.status == "success")).map (fun t => t.trans))
        ++ "\n" ++ final_refs_block raw_refs
    ∧ (∀ (ts1 ts2 : List Task) (refs : String),
        ts1.filter (fun t => t.status == "success")
          = ts2.filter (fun t => t.status == "success") →
        result_file_content ts1 refs = result_file_content ts2 refs) := by
  constructor
  · rfl
  · intro ts1 ts2 refs h
    rw [result_file_content, result_file_content, h]

/-- Witness for `c10_main`: swapping the translation of a failed task for
any other text leaves the result file unchanged. -/
theorem c10_witness :
    ([({ id := 0, type := "body", chunk_hash := "h", status := "failed",
         src := "S", trans := "JUNK", user_hint := "", old_trans := "" } : Task)].filter
      (fun t => t.status == "success")
      = [({ id := 0, type := "body", chunk_hash := "h", status := "failed",
            src := "S", trans := "OTHER", user_hint := "", old_trans := "" } : Task)].filter
      (fun t => t.status == "success"))
    ∧ result_file_content
        [{ id := 0, type := "body", chunk_hash := "h", status := "failed",
           src := "S", trans := "JUNK", user_hint := "", old_trans := "" }] "refs"
      = result_file_content
        [{ id := 0, type := "body", chunk_hash := "h", status := "failed",
           src := "S", trans := "OTHER", user_hint := "", old_trans := "" }] "refs" := by
  refine ⟨by decide, ?_⟩
  exact (c10_main (fun _ => false) (fun _ => PResult.err) [] [] "" "").2
    [{ id := 0, type := "body", chunk_hash := "h", status := "failed",
       src := "S", trans := "JUNK", user_hint := "", old_trans := "" }]
    [{ id := 0, type := "body", chunk_hash := "h", status := "failed",
       src := "S", trans := "OTHER", user_hint := "", old_trans := "" }]
    "refs" (by decide)

end PdfPaperTranslator
